import Mathlib

/-!
Shallow embedding of the `avernixtechnologies/logger` package (src/index.ts)
and verification of its specification claims.

The embedding models JavaScript runtime values that flow through the logger
(`string | object | undefined` arguments), the chalk rendering backend and the
luxon timestamp as explicit data, and every observable side effect (console
writes and transport invocations) as an explicit event trace returned by each
operation.  All definitions are translated directly from src/index.ts; the two
definitions whose names end in `specC5` / `spec` are instead written from the
specification's words, for comparison against the code.
-/

/-- Model of a JavaScript value of type `string | object | undefined` as it
flows through the logger's argument positions.  An `obj` carries an opaque
identity so that distinct payloads can be told apart. -/
inductive JsVal where
  | str : String → JsVal
  | obj : Nat → JsVal
  | undefined : JsVal
deriving DecidableEq, Repr

/-- The test `typeof x === 'string'`. -/
def JsVal.isString : JsVal → Bool
  | .str _ => true
  | _ => false

/-- The test `typeof x === 'object'` (undefined is not an object). -/
def JsVal.isObject : JsVal → Bool
  | .obj _ => true
  | _ => false

/-- JavaScript truthiness of a modelled value: objects are truthy, the empty
string and `undefined` are falsy. -/
def JsVal.truthy : JsVal → Bool
  | .str s => !(s == "")
  | .obj _ => true
  | .undefined => false

/-- Model of a luxon `DateTime` at emission time: we record only the string
produced by `toLocaleString(DateTime.TIME_24_WITH_SHORT_OFFSET)`, which is all
the logger reads from it. -/
structure DateTimeM where
  rendered : String
deriving DecidableEq, Repr

/-- The argument record handed to a caller-supplied `formatFunction`
(fields `level`, `message`, `date`, `name` in src/index.ts). -/
structure FormatArgs where
  level : String
  message : Option String
  date : DateTimeM
  name : Option String

/-- Uppercasing of a string, modelling JavaScript `toUpperCase` on the ASCII
level names used by the logger. -/
def jsToUpper (s : String) : String :=
  ⟨s.data.map Char.toUpper⟩

/-- Model of the chalk backend's surface: the property names `p` for which
`typeof chalk[p] === 'function'` holds.  chalk is an external dependency of the
repository, so its surface is modelled rather than embedded. -/
def chalkFunctionKeys : List String :=
  ["hex", "rgb", "red", "green", "blue", "yellow", "cyan", "magenta",
   "white", "black", "gray", "grey", "bold", "dim", "italic", "underline",
   "inverse", "strikethrough", "bgRed", "bgGreen", "bgBlue", "reset"]

/-- Model of `chalk.hex(color)(text)`: the colorized rendering of `text` under
hex color `color`, represented by explicit markers in place of ANSI codes. -/
def chalkHex (color text : String) : String :=
  "<hex " ++ color ++ ">" ++ text ++ "</hex>"

/-- Model of `chalk[method](text)` for a named chalk method. -/
def chalkMethodRender (method text : String) : String :=
  "<" ++ method ++ ">" ++ text ++ "</" ++ method ++ ">"

/-- A hexadecimal digit, as matched by the character class `[0-9a-fA-F]`. -/
def isHexDigit (c : Char) : Bool :=
  c.isDigit || (('a' ≤ c) && (c ≤ 'f')) || (('A' ≤ c) && (c ≤ 'F'))

/-- Embedding of `Logger.isValidHexColor`: the regular expression
`^#([0-9a-fA-F]\x7b3,4\x7d|[0-9a-fA-F]\x7b6\x7d|[0-9a-fA-F]\x7b8\x7d)$`
accepts exactly the strings consisting of `#` followed by 3, 4, 6 or 8 hex
digits. -/
def isValidHexColor (hex : String) : Bool :=
  match hex.data with
  | '#' :: rest =>
      rest.all isHexDigit &&
        (rest.length == 3 || rest.length == 4 || rest.length == 6 || rest.length == 8)
  | _ => false

/-- Embedding of the JavaScript object spread `\x7b...base, ...extra\x7d` on
string-keyed objects, as association lists: keys of `base` keep their position
with values overridden by `extra` on collision, and keys of `extra` absent from
`base` are appended in order. -/
def objMerge (base extra : List (String × String)) : List (String × String) :=
  base.map (fun p => (p.1, (List.lookup p.1 extra).getD p.2)) ++
    extra.filter (fun p => (List.lookup p.1 base).isNone)

/-- The fixed default level table of the constructor (src/index.ts lines
191-201), in source order. -/
def defaultLogLevels : List (String × String) :=
  [("info", "#00FF00"), ("debug", "#0000FF"), ("error", "#FF0000"),
   ("http", "#D3D3D3"), ("notice", "#00FFFF"), ("warn", "#FFFF00"),
   ("crit", "#FF00FF"), ("ignore", "#FFFFFF"), ("danger", "#FF4000")]

/-- Model of a registered transport.  From the logger's point of view a
transport is an external capability whose invocation either completes or
throws/rejects; `fails` records which, and `id` is its identity. -/
structure LogTransport where
  id : Nat
  fails : Bool
deriving DecidableEq, Repr

/-- One invocation of a transport's `log` method, with the tuple the
dispatcher passed it. -/
structure TransportCall where
  transportId : Nat
  level : String
  messageOrData : JsVal
  dataIfMessage : JsVal
deriving DecidableEq, Repr

/-- A write to the console: the formatted line of `console.log` in `log` (with
its second argument), the `console.error` of the transport catch block, or a
constructor warning about an invalid color. -/
inductive ConsoleEvent where
  | line (text : String) (dataArg : JsVal)
  | transportError (transportId : Nat)
  | invalidColorWarning (color : String)
deriving DecidableEq, Repr

/-- An observable effect of an emission, in order of occurrence. -/
inductive Event where
  | console (e : ConsoleEvent)
  | transportInvoke (c : TransportCall)
deriving DecidableEq, Repr

/-- The `Log` record returned by `Logger.log`. -/
structure Log where
  level : String
  messageOrData : JsVal
  dataIfMessage : JsVal
deriving DecidableEq, Repr

/-- The `LogSet` record returned by the convenience methods. -/
structure LogSet where
  messageOrData : JsVal
  dataIfMessage : JsVal
deriving DecidableEq, Repr

/-- The constructor's `Args` object (src/index.ts lines 102-113); every field
is optional. -/
structure Args where
  debugMode : Option Bool := none
  customLogLevels : Option (List (String × String)) := none
  name : Option String := none
  debugLevels : Option (List String) := none
  formatFunction : Option (FormatArgs → String) := none

/-- The `Logger` instance state (fields of the class in src/index.ts). -/
structure Logger where
  logLevels : List (String × String)
  name : Option String
  debugMode : Bool
  debugLevels : List String
  customLogLevels : List (String × String)
  transports : List LogTransport
  formatFunction : Option (FormatArgs → String)

/-- Embedding of the `Logger` constructor (src/index.ts lines 185-217): field
initialization, the merge of the default level table with the caller-supplied
custom levels, and the per-invalid-color console warnings it prints.  Returns
the constructed instance together with the console events of construction. -/
def Logger.construct (args : Args) : Logger × List ConsoleEvent :=
  let custom := args.customLogLevels.getD []
  let logLevels := objMerge defaultLogLevels custom
  (⟨logLevels, args.name, args.debugMode.getD true, args.debugLevels.getD [],
    custom, [], args.formatFunction⟩,
   ((logLevels.map Prod.snd).filter (fun c => !isValidHexColor c)).map
     ConsoleEvent.invalidColorWarning)

/-- Embedding of `Logger.addTransport`: appends to the transport list. -/
def Logger.addTransport (l : Logger) (t : LogTransport) : Logger :=
  { l with transports := l.transports ++ [t] }

/-- The level-tag resolution inside `Logger.getString` (src/index.ts lines
234-246): look the level up in the registry; a valid hex color renders through
`chalk.hex`, a chalk method name renders through that method, and anything
else — including a level absent from the registry, whose lookup yields
`undefined` — renders as plain uppercase text. -/
def resolveLevelTag (logLevels : List (String × String)) (level : String) : String :=
  match List.lookup level logLevels with
  | some c =>
      if isValidHexColor c then chalkHex c (jsToUpper level)
      else if chalkFunctionKeys.contains c then chalkMethodRender c (jsToUpper level)
      else jsToUpper level
  | none => jsToUpper level

/-- The `this.name ? this.name + ' | ' : ''` segment of the default format. -/
def nameSegment : Option String → String
  | some n => if n == "" then "" else n ++ " | "
  | none => ""

/-- The `message ? ' ' + message : ''` segment of the default format. -/
def messageSegment : Option String → String
  | some m => if m == "" then "" else " " ++ m
  | none => ""

/-- Embedding of `Logger.getString` (src/index.ts lines 232-260): resolve the
colorized level tag, then either hand everything to the custom format function
or compose the default line. -/
def Logger.getString (l : Logger) (dt : DateTimeM) (level : String)
    (message : Option String) : String :=
  let formattedLevel := resolveLevelTag l.logLevels level
  match l.formatFunction with
  | some f => f ⟨formattedLevel, message, dt, l.name⟩
  | none =>
      dt.rendered ++ " | " ++ nameSegment l.name ++ formattedLevel ++ ":" ++
        messageSegment message

/-- The normalization `typeof messageOrData === 'string' ? messageOrData :
undefined` of `Logger.log` and the convenience methods. -/
def normMessage : JsVal → Option String
  | .str s => some s
  | _ => none

/-- The normalization `typeof messageOrData === 'object' ? messageOrData :
dataIfMessage`. -/
def normData (messageOrData dataIfMessage : JsVal) : JsVal :=
  if messageOrData.isObject then messageOrData else dataIfMessage

/-- A `string | undefined` local passed back into a `string | object |
undefined` argument position. -/
def jsOfOptStr : Option String → JsVal
  | some s => .str s
  | none => .undefined

/-- The suppression guard of `Logger.log` (src/index.ts lines 274-277). -/
def suppressed (l : Logger) (level : String) : Bool :=
  (level == "debug" && !l.debugMode) || (l.debugLevels.contains level && !l.debugMode)

/-- The `console.log` event of a non-suppressed `Logger.log` call: the
formatted line plus `data ? data : ''` as second console argument. -/
def consoleLineOf (l : Logger) (dt : DateTimeM) (level : String)
    (messageOrData dataIfMessage : JsVal) : Event :=
  let data := normData messageOrData dataIfMessage
  .console (.line (l.getString dt level (normMessage messageOrData))
    (if data.truthy then data else .str ""))

/-- The per-transport step of the fan-out loop in `Logger.log`: the awaited
invocation, followed by the catch block's `console.error` when the transport
throws or rejects. -/
def fanoutOf (level : String) (messageOrData dataIfMessage : JsVal)
    (t : LogTransport) : List Event :=
  Event.transportInvoke ⟨t.id, level, messageOrData, dataIfMessage⟩ ::
    (if t.fails then [Event.console (.transportError t.id)] else [])

/-- Embedding of `Logger.log` (src/index.ts lines 270-292): normalize the
arguments, return early with the record when suppressed, otherwise write the
console line, run the transport fan-out, and return the record.  The second
component is the ordered trace of observable effects. -/
def Logger.log (l : Logger) (dt : DateTimeM) (level : String)
    (messageOrData dataIfMessage : JsVal) : Log × List Event :=
  if suppressed l level then
    (⟨level, messageOrData, dataIfMessage⟩, [])
  else
    (⟨level, messageOrData, dataIfMessage⟩,
     consoleLineOf l dt level messageOrData dataIfMessage ::
       l.transports.flatMap (fanoutOf level messageOrData dataIfMessage))

/-- Embedding of `Logger.info` (src/index.ts lines 300-306): normalizes the
arguments and forwards to `log` with level `'info'`. -/
def Logger.info (l : Logger) (dt : DateTimeM)
    (messageOrData dataIfMessage : JsVal) : LogSet × List Event :=
  let message := normMessage messageOrData
  let data := normData messageOrData dataIfMessage
  (⟨messageOrData, dataIfMessage⟩, (l.log dt "info" (jsOfOptStr message) data).2)

/-- Embedding of `Logger.debug` (src/index.ts lines 314-320).  Note: the
source forwards to `log` with level `'info'`, not `'debug'`. -/
def Logger.debug (l : Logger) (dt : DateTimeM)
    (messageOrData dataIfMessage : JsVal) : LogSet × List Event :=
  let message := normMessage messageOrData
  let data := normData messageOrData dataIfMessage
  (⟨messageOrData, dataIfMessage⟩, (l.log dt "info" (jsOfOptStr message) data).2)

/-- Embedding of `Logger.error` (src/index.ts lines 328-334); the source
forwards to `log` with level `'info'`. -/
def Logger.error (l : Logger) (dt : DateTimeM)
    (messageOrData dataIfMessage : JsVal) : LogSet × List Event :=
  let message := normMessage messageOrData
  let data := normData messageOrData dataIfMessage
  (⟨messageOrData, dataIfMessage⟩, (l.log dt "info" (jsOfOptStr message) data).2)

/-- Embedding of `Logger.warn` (src/index.ts lines 342-348); the source
forwards to `log` with level `'info'`. -/
def Logger.warn (l : Logger) (dt : DateTimeM)
    (messageOrData dataIfMessage : JsVal) : LogSet × List Event :=
  let message := normMessage messageOrData
  let data := normData messageOrData dataIfMessage
  (⟨messageOrData, dataIfMessage⟩, (l.log dt "info" (jsOfOptStr message) data).2)

/-- Embedding of `Logger.crit` (src/index.ts lines 356-362); the source
forwards to `log` with level `'info'`. -/
def Logger.crit (l : Logger) (dt : DateTimeM)
    (messageOrData dataIfMessage : JsVal) : LogSet × List Event :=
  let message := normMessage messageOrData
  let data := normData messageOrData dataIfMessage
  (⟨messageOrData, dataIfMessage⟩, (l.log dt "info" (jsOfOptStr message) data).2)

/-- Embedding of `Logger.notice` (src/index.ts lines 370-376); the source
forwards to `log` with level `'info'`. -/
def Logger.notice (l : Logger) (dt : DateTimeM)
    (messageOrData dataIfMessage : JsVal) : LogSet × List Event :=
  let message := normMessage messageOrData
  let data := normData messageOrData dataIfMessage
  (⟨messageOrData, dataIfMessage⟩, (l.log dt "info" (jsOfOptStr message) data).2)

/-- Embedding of `Logger.http` (src/index.ts lines 384-390); the source
forwards to `log` with level `'info'`. -/
def Logger.http (l : Logger) (dt : DateTimeM)
    (messageOrData dataIfMessage : JsVal) : LogSet × List Event :=
  let message := normMessage messageOrData
  let data := normData messageOrData dataIfMessage
  (⟨messageOrData, dataIfMessage⟩, (l.log dt "info" (jsOfOptStr message) data).2)

/-- Embedding of `Logger.danger` (src/index.ts lines 398-404); the source
forwards to `log` with level `'info'`. -/
def Logger.danger (l : Logger) (dt : DateTimeM)
    (messageOrData dataIfMessage : JsVal) : LogSet × List Event :=
  let message := normMessage messageOrData
  let data := normData messageOrData dataIfMessage
  (⟨messageOrData, dataIfMessage⟩, (l.log dt "info" (jsOfOptStr message) data).2)

/-- Embedding of `Logger.ignore` (src/index.ts line 412): the body is empty,
so the instance is unchanged and no effect occurs. -/
def Logger.ignore (l : Logger) (messageOrData dataIfMessage : JsVal) :
    Logger × List Event :=
  (l, [])

/-- What a property access on the proxy of `createLogger` yields. -/
inductive ProxyGetResult where
  | synthesized (level : String)
  | passthrough
deriving DecidableEq, Repr

/-- The string-keyed properties of `Object.prototype`, the prototype of the
plain object held in `customLogLevels`.  The JavaScript `in` operator walks
the prototype chain, so `prop in target.customLogLevels` is true for these
names even when `prop` is not an own key of the table. -/
def objectPrototypeKeys : List String :=
  ["constructor", "hasOwnProperty", "isPrototypeOf", "propertyIsEnumerable",
   "toLocaleString", "toString", "valueOf", "__proto__", "__defineGetter__",
   "__defineSetter__", "__lookupGetter__", "__lookupSetter__"]

/-- Embedding of the `get` trap of `createLogger` (src/index.ts lines
418-428): the guard is `prop in target.customLogLevels`, which holds when
`prop` is an own key of the custom-level table or a property inherited from
`Object.prototype`; such a string property yields a synthesized forwarding
function, and every other access is `Reflect.get` on the underlying
instance. -/
def proxyGet (l : Logger) (prop : String) : ProxyGetResult :=
  if (List.lookup prop l.customLogLevels).isSome ||
      objectPrototypeKeys.contains prop then .synthesized prop
  else .passthrough

/-- The behaviour of the synthesized function returned by the proxy's `get`
trap: normalize the two arguments and call `target.log(prop, message, data)`
(src/index.ts lines 420-425). -/
def proxyCall (l : Logger) (dt : DateTimeM) (prop : String)
    (messageOrData dataIfMessage : JsVal) : List Event :=
  let message := normMessage messageOrData
  let data := normData messageOrData dataIfMessage
  (l.log dt prop (jsOfOptStr message) data).2

/-- The fixed method and property names of the `Logger` class. -/
def fixedMethodNames : List String :=
  ["log", "info", "debug", "error", "warn", "crit", "notice", "http",
   "danger", "ignore", "addTransport", "isValidHexColor", "getString"]

/-- Formalization of claim C9's words (and spec 4.6): the proxy synthesizes a
forwarder only when the property is a custom-level key AND not a fixed method
name; otherwise it passes through.  Written from the spec for comparison with
`proxyGet`, which is translated from the code. -/
def proxyGetSpec (l : Logger) (prop : String) : ProxyGetResult :=
  if (List.lookup prop l.customLogLevels).isSome &&
      !(fixedMethodNames.contains prop) then .synthesized prop
  else .passthrough

/-- Formalization of claim C5's words (spec 4.3): the default format with the
entire trailing colon-plus-message segment absent when no message was
supplied.  Written from the spec for comparison with `Logger.getString`. -/
def getStringSpecC5 (l : Logger) (dt : DateTimeM) (level : String)
    (message : Option String) : String :=
  let formattedLevel := resolveLevelTag l.logLevels level
  dt.rendered ++ " | " ++ nameSegment l.name ++ formattedLevel ++
    (match message with
     | some m => ": " ++ m
     | none => "")

/-- Projection of an effect trace to the transport invocations it contains. -/
def transportCalls (es : List Event) : List TransportCall :=
  es.filterMap fun e =>
    match e with
    | .transportInvoke c => some c
    | _ => none

/-- Projection of an effect trace to the console events it contains. -/
def consoleEvents (es : List Event) : List ConsoleEvent :=
  es.filterMap fun e =>
    match e with
    | .console c => some c
    | _ => none

/-- A fixed sample timestamp used by the concrete witnesses. -/
def dt0 : DateTimeM := ⟨"10:00 +1"⟩

/-- A sample logger with a display name and all other options defaulted. -/
def L0 : Logger := (Logger.construct { name := some "App" }).1

/-- A sample logger with the debug-emission flag set to false. -/
def L0d : Logger :=
  (Logger.construct { name := some "App", debugMode := some false }).1

/-- A sample logger with two registered transports, the second of which always
fails. -/
def L2 : Logger :=
  ((Logger.construct {}).1.addTransport ⟨1, false⟩).addTransport ⟨2, true⟩

/-- A sample logger whose custom level `bad` carries an invalid color
specifier. -/
def LBad : Logger :=
  (Logger.construct { customLogLevels := some [("bad", "notacolor")] }).1

/-- A sample logger whose custom level table overrides the built-in `info`
key. -/
def LInfoCustom : Logger :=
  (Logger.construct { customLogLevels := some [("info", "#FF0000")] }).1

/-- Sample constructor arguments overriding the color of `info`. -/
def argsCustomInfo : Args := { customLogLevels := some [("info", "#123456")] }

/-- A sample logger constructed with every option defaulted, so its
custom-level table is empty. -/
def LPlain : Logger := (Logger.construct {}).1

/-- Lookup distributes over list append, preferring the left list. -/
lemma lookup_append (k : String) (xs ys : List (String × String)) :
    List.lookup k (xs ++ ys) =
      match List.lookup k xs with
      | some v => some v
      | none => List.lookup k ys := by
  induction xs with
  | nil => simp
  | cons p xs ih =>
      obtain ⟨a, b⟩ := p
      by_cases hk : k = a
      · subst hk; simp [List.lookup]
      · have hb : (k == a) = false := by simpa using hk
        simp [List.lookup, hb, ih]

/-- Lookup in the value-overridden copy of `base` built by `objMerge`. -/
lemma lookup_map_override (k : String) (base extra : List (String × String)) :
    List.lookup k (base.map (fun p => (p.1, (List.lookup p.1 extra).getD p.2))) =
      (List.lookup k base).map (fun v => (List.lookup k extra).getD v) := by
  induction base with
  | nil => simp
  | cons p bs ih =>
      obtain ⟨a, b⟩ := p
      by_cases hk : k = a
      · subst hk; simp [List.lookup]
      · have hb : (k == a) = false := by simpa using hk
        simp [List.lookup, hb, ih]

/-- When `k` is not a key of `base`, filtering `extra` down to keys absent
from `base` preserves the lookup of `k`. -/
lemma lookup_filter_of_base_none (k : String) (base extra : List (String × String))
    (h : List.lookup k base = none) :
    List.lookup k (extra.filter (fun p => (List.lookup p.1 base).isNone)) =
      List.lookup k extra := by
  induction extra with
  | nil => simp
  | cons p es ih =>
      obtain ⟨a, b⟩ := p
      by_cases hk : k = a
      · subst hk
        simp [List.filter_cons, h, List.lookup]
      · have hb : (k == a) = false := by simpa using hk
        by_cases hf : (List.lookup a base).isNone
        · simp [List.filter_cons, hf, List.lookup, hb, ih]
        · simp [List.filter_cons, hf, List.lookup, hb, ih]

/-- When `k` is a key of `base`, no entry for `k` survives the filter. -/
lemma lookup_filter_of_base_some (k : String) (v : String)
    (base extra : List (String × String)) (h : List.lookup k base = some v) :
    List.lookup k (extra.filter (fun p => (List.lookup p.1 base).isNone)) =
      none := by
  induction extra with
  | nil => simp
  | cons p es ih =>
      obtain ⟨a, b⟩ := p
      by_cases hk : k = a
      · subst hk
        simp [List.filter_cons, h, ih]
      · have hb : (k == a) = false := by simpa using hk
        by_cases hf : (List.lookup a base).isNone
        · simp [List.filter_cons, hf, List.lookup, hb, ih]
        · simp [List.filter_cons, hf, List.lookup, hb, ih]

/-- Lookup semantics of the object-spread merge: the custom table wins on
collision and falls back to the base table otherwise. -/
lemma lookup_objMerge (k : String) (base extra : List (String × String)) :
    List.lookup k (objMerge base extra) =
      match List.lookup k extra with
      | some v => some v
      | none => List.lookup k base := by
  unfold objMerge
  rw [lookup_append, lookup_map_override]
  cases hb : List.lookup k base with
  | none =>
      rw [lookup_filter_of_base_none k base extra hb]
      cases he : List.lookup k extra <;> simp [hb]
  | some b =>
      cases he : List.lookup k extra <;> simp [he, hb]

/-- Merging an empty custom table leaves the base table unchanged. -/
lemma objMerge_nil (base : List (String × String)) :
    objMerge base [] = base := by
  simp [objMerge]

/-- The transport-invocation projection distributes over append. -/
lemma transportCalls_append (a b : List Event) :
    transportCalls (a ++ b) = transportCalls a ++ transportCalls b := by
  simp [transportCalls]

/-- The console-event projection distributes over append. -/
lemma consoleEvents_append (a b : List Event) :
    consoleEvents (a ++ b) = consoleEvents a ++ consoleEvents b := by
  simp [consoleEvents]

/-- One fan-out step contributes exactly one invocation with the dispatched
tuple. -/
lemma transportCalls_fanout_single (level : String) (m d : JsVal)
    (t : LogTransport) :
    transportCalls (fanoutOf level m d t) = [⟨t.id, level, m, d⟩] := by
  cases hf : t.fails <;> simp [fanoutOf, hf, transportCalls]

/-- One fan-out step contributes a console error exactly when the transport
fails. -/
lemma consoleEvents_fanout_single (level : String) (m d : JsVal)
    (t : LogTransport) :
    consoleEvents (fanoutOf level m d t) =
      if t.fails then [ConsoleEvent.transportError t.id] else [] := by
  cases hf : t.fails <;> simp [fanoutOf, hf, consoleEvents]

/-- The whole fan-out invokes each registered transport exactly once, in
registration order, with the dispatched tuple. -/
lemma transportCalls_fanout (ts : List LogTransport) (level : String)
    (m d : JsVal) :
    transportCalls (ts.flatMap (fanoutOf level m d)) =
      ts.map (fun t => ⟨t.id, level, m, d⟩) := by
  induction ts with
  | nil => rfl
  | cons t ts ih =>
      simp [List.flatMap_cons, transportCalls_append,
        transportCalls_fanout_single, ih]

/-- The whole fan-out reports one console error per failing transport, in
order. -/
lemma consoleEvents_fanout (ts : List LogTransport) (level : String)
    (m d : JsVal) :
    consoleEvents (ts.flatMap (fanoutOf level m d)) =
      (ts.filter (fun t => t.fails)).map
        (fun t => ConsoleEvent.transportError t.id) := by
  induction ts with
  | nil => rfl
  | cons t ts ih =>
      cases hf : t.fails <;>
        simp [List.flatMap_cons, consoleEvents_append,
          consoleEvents_fanout_single, hf, ih, List.filter_cons]

/-- Unfolding of a non-suppressed `log` call. -/
lemma log_not_suppressed (l : Logger) (dt : DateTimeM) (level : String)
    (m d : JsVal) (h : suppressed l level = false) :
    l.log dt level m d =
      (⟨level, m, d⟩,
       consoleLineOf l dt level m d :: l.transports.flatMap (fanoutOf level m d)) := by
  simp [Logger.log, h]

/-- Unfolding of a suppressed `log` call. -/
lemma log_suppressed_eq (l : Logger) (dt : DateTimeM) (level : String)
    (m d : JsVal) (h : suppressed l level = true) :
    l.log dt level m d = (⟨level, m, d⟩, []) := by
  simp [Logger.log, h]

/-- C2: on a logger whose debug-emission flag is false, a `log` call at level
`debug` or at a level in the configured `debugLevels` set produces no console
output and no transport invocation, throws nothing, and returns a `Log` record
carrying the three inputs unchanged. -/
theorem log_suppressed_silent (l : Logger) (dt : DateTimeM) (level : String)
    (m d : JsVal) (hdm : l.debugMode = false)
    (hl : level = "debug" ∨ l.debugLevels.contains level = true) :
    l.log dt level m d = (⟨level, m, d⟩, []) := by
  have hs : suppressed l level = true := by
    rcases hl with h1 | h2
    · subst h1; simp [suppressed, hdm]
    · simp [suppressed, hdm]
      exact Or.inr (by simpa using h2)
  exact log_suppressed_eq l dt level m d hs

/-- Witness for C2 at a concrete suppressed call. -/
theorem log_suppressed_silent_witness :
    L0d.log dt0 "debug" (.str "m") .undefined = (⟨"debug", .str "m", .undefined⟩, []) :=
  log_suppressed_silent L0d dt0 "debug" (.str "m") .undefined rfl (Or.inl rfl)

/-- C3: the `ignore` convenience method writes nothing to the console, invokes
no transport, and leaves the logger instance unchanged, for every pair of
arguments and every logger state. -/
theorem ignore_no_effects (l : Logger) (m d : JsVal) :
    (Logger.ignore l m d).1 = l ∧
      consoleEvents (Logger.ignore l m d).2 = [] ∧
      transportCalls (Logger.ignore l m d).2 = [] :=
  ⟨rfl, rfl, rfl⟩

/-- C6: a non-suppressed `log` call returns the record of its inputs, writes
the console line first, invokes each registered transport exactly once in
registration order with the dispatched tuple, and reports each failing
transport to the console while still invoking the remaining transports. -/
theorem log_transport_fanout (l : Logger) (dt : DateTimeM) (level : String)
    (m d : JsVal) (h : suppressed l level = false) :
    (l.log dt level m d).1 = ⟨level, m, d⟩ ∧
      (l.log dt level m d).2.head? = some (consoleLineOf l dt level m d) ∧
      transportCalls (l.log dt level m d).2 =
        l.transports.map (fun t => ⟨t.id, level, m, d⟩) ∧
      consoleEvents ((l.log dt level m d).2.drop 1) =
        (l.transports.filter (fun t => t.fails)).map
          (fun t => ConsoleEvent.transportError t.id) := by
  rw [log_not_suppressed l dt level m d h]
  refine ⟨rfl, rfl, ?_, ?_⟩
  · show transportCalls (consoleLineOf l dt level m d ::
      l.transports.flatMap (fanoutOf level m d)) = _
    rw [show (consoleLineOf l dt level m d ::
        l.transports.flatMap (fanoutOf level m d)) =
        [consoleLineOf l dt level m d] ++
          l.transports.flatMap (fanoutOf level m d) from rfl,
      transportCalls_append, transportCalls_fanout]
    simp [transportCalls, consoleLineOf]
  · simpa using consoleEvents_fanout l.transports level m d

/-- Witness for C6 on a logger with one succeeding and one failing transport. -/
theorem log_transport_fanout_witness :
    (L2.log dt0 "warn" (.str "m") .undefined).1 = ⟨"warn", .str "m", .undefined⟩ ∧
      (L2.log dt0 "warn" (.str "m") .undefined).2.head? =
        some (consoleLineOf L2 dt0 "warn" (.str "m") .undefined) ∧
      transportCalls (L2.log dt0 "warn" (.str "m") .undefined).2 =
        [⟨1, "warn", .str "m", .undefined⟩, ⟨2, "warn", .str "m", .undefined⟩] ∧
      consoleEvents ((L2.log dt0 "warn" (.str "m") .undefined).2.drop 1) =
        [ConsoleEvent.transportError 2] := by
  have h := log_transport_fanout L2 dt0 "warn" (.str "m") .undefined rfl
  exact ⟨h.1, h.2.1, h.2.2.1, h.2.2.2⟩

/-- C10: with the debug-emission flag at its default value true, `log` with the
string level `ignore` is not special-cased: it returns the usual record, writes
the console line, and invokes every registered transport; moreover a
constructor call with `debugMode` omitted yields that default. -/
theorem log_ignore_level_not_special (l : Logger) (dt : DateTimeM)
    (m d : JsVal) (h : l.debugMode = true) :
    (l.log dt "ignore" m d).1 = ⟨"ignore", m, d⟩ ∧
      (l.log dt "ignore" m d).2.head? =
        some (consoleLineOf l dt "ignore" m d) ∧
      transportCalls (l.log dt "ignore" m d).2 =
        l.transports.map (fun t => ⟨t.id, "ignore", m, d⟩) ∧
      (∀ args : Args, args.debugMode = none →
        (Logger.construct args).1.debugMode = true) := by
  have hs : suppressed l "ignore" = false := by simp [suppressed, h]
  have hfan := log_transport_fanout l dt "ignore" m d hs
  exact ⟨hfan.1, hfan.2.1, hfan.2.2.1, fun args ha => by
    simp [Logger.construct, ha]⟩

/-- Witness for C10: on the two-transport logger (default debug mode), the
level string `ignore` emits a console line and reaches both transports. -/
theorem log_ignore_level_not_special_witness :
    (L2.log dt0 "ignore" (.str "m") .undefined).1 = ⟨"ignore", .str "m", .undefined⟩ ∧
      (L2.log dt0 "ignore" (.str "m") .undefined).2.head? =
        some (consoleLineOf L2 dt0 "ignore" (.str "m") .undefined) ∧
      transportCalls (L2.log dt0 "ignore" (.str "m") .undefined).2 =
        [⟨1, "ignore", .str "m", .undefined⟩, ⟨2, "ignore", .str "m", .undefined⟩] := by
  have h := log_ignore_level_not_special L2 dt0 (.str "m") .undefined rfl
  exact ⟨h.1, h.2.1, h.2.2.1⟩

/-- C1 (code bug): on a logger with `debugMode = false`, the `debug`
convenience method produces exactly the effects of `log('info', …)` — a
console write — whereas `log('debug', …)` with the level name fixed to
`debug` is suppressed and silent, so `debug` does not forward to `log` with
its own level name. -/
theorem debug_method_forwards_to_info :
    (Logger.debug L0d dt0 (.str "m") .undefined).2 =
        (L0d.log dt0 "info" (.str "m") .undefined).2 ∧
      (L0d.log dt0 "debug" (.str "m") .undefined).2 = [] ∧
      (Logger.debug L0d dt0 (.str "m") .undefined).2 ≠ [] := by
  refine ⟨rfl, rfl, ?_⟩
  decide

/-- C4: `log` uses a string second argument as the message text with the third
argument as payload, while a structured second argument becomes the payload
with no message text, and the default-format line then carries no message
segment. -/
theorem log_argument_normalization (l : Logger) (dt : DateTimeM)
    (level : String) (s : String) (o : Nat) (d : JsVal)
    (h : suppressed l level = false) :
    (l.log dt level (.str s) d).2.head? =
        some (.console (.line (l.getString dt level (some s))
          (if d.truthy then d else .str ""))) ∧
      (l.log dt level (.obj o) d).2.head? =
        some (.console (.line (l.getString dt level none) (.obj o))) ∧
      (l.formatFunction = none →
        l.getString dt level none =
          dt.rendered ++ " | " ++ nameSegment l.name ++
            resolveLevelTag l.logLevels level ++ ":") := by
  refine ⟨?_, ?_, ?_⟩
  · rw [log_not_suppressed l dt level (.str s) d h]
    simp [consoleLineOf, normMessage, normData, JsVal.isObject]
  · rw [log_not_suppressed l dt level (.obj o) d h]
    simp [consoleLineOf, normMessage, normData, JsVal.isObject, JsVal.truthy]
  · intro hf
    simp [Logger.getString, hf, messageSegment]

/-- Witness for C4 at concrete string and structured arguments. -/
theorem log_argument_normalization_witness :
    (L0.log dt0 "info" (.str "m") .undefined).2.head? =
        some (.console (.line (L0.getString dt0 "info" (some "m")) (.str ""))) ∧
      (L0.log dt0 "info" (.obj 7) .undefined).2.head? =
        some (.console (.line (L0.getString dt0 "info" none) (.obj 7))) ∧
      L0.getString dt0 "info" none =
        dt0.rendered ++ " | " ++ nameSegment L0.name ++
          resolveLevelTag L0.logLevels "info" ++ ":" := by
  have h := log_argument_normalization L0 dt0 "info" "m" 7 .undefined rfl
  exact ⟨by simpa [JsVal.truthy] using h.1, h.2.1, h.2.2 rfl⟩

/-- C5 counterexample: at a concrete data-only call the default formatter
keeps the trailing colon, so its output differs from the spec's claimed form
in which the entire colon-plus-message segment is absent. -/
theorem default_format_keeps_colon :
    L0.getString dt0 "info" none ≠ getStringSpecC5 L0 dt0 "info" none := by
  decide

/-- C5 amended: the default formatter produces
time, separator, optional name segment, colorized level tag, a colon that is
always present, and a space-plus-message segment only when a nonempty message
was supplied. -/
theorem default_format_shape (l : Logger) (dt : DateTimeM) (level : String)
    (message : Option String) (h : l.formatFunction = none) :
    l.getString dt level message =
        dt.rendered ++ " | " ++ nameSegment l.name ++
          resolveLevelTag l.logLevels level ++ ":" ++ messageSegment message ∧
      (l.name = none → nameSegment l.name = "") ∧
      (message = none → messageSegment message = "") ∧
      (∀ m, message = some m → m ≠ "" → messageSegment message = " " ++ m) ∧
      (∀ n, l.name = some n → n ≠ "" → nameSegment l.name = n ++ " | ") := by
  refine ⟨by simp [Logger.getString, h], ?_, ?_, ?_, ?_⟩
  · intro hn; simp [nameSegment, hn]
  · intro hm; simp [messageSegment, hm]
  · intro m hm hme; subst hm; simp [messageSegment, hme]
  · intro n hn hne; simp [nameSegment, hn, hne]

/-- Witness for C5 (amended) at a concrete call with a nonempty message. -/
theorem default_format_shape_witness :
    L0.getString dt0 "info" (some "m") =
        dt0.rendered ++ " | " ++ nameSegment L0.name ++
          resolveLevelTag L0.logLevels "info" ++ ":" ++
          messageSegment (some "m") ∧
      messageSegment (some "m") = " " ++ "m" := by
  have h := default_format_shape L0 dt0 "info" (some "m") rfl
  exact ⟨h.1, h.2.2.2.1 "m" rfl (by decide)⟩

/-- C7: the constructed level registry resolves every key to the caller's
custom value when the custom table defines it and to the default table's value
otherwise, and a logger constructed without custom levels has exactly the
default table. -/
theorem construct_logLevels_merge (args : Args) (k : String) :
    List.lookup k (Logger.construct args).1.logLevels =
        (match List.lookup k (args.customLogLevels.getD []) with
         | some v => some v
         | none => List.lookup k defaultLogLevels) ∧
      (args.customLogLevels = none →
        (Logger.construct args).1.logLevels = defaultLogLevels) := by
  constructor
  · exact lookup_objMerge k defaultLogLevels (args.customLogLevels.getD [])
  · intro hc
    show objMerge defaultLogLevels (args.customLogLevels.getD []) = _
    rw [hc]
    exact objMerge_nil defaultLogLevels

/-- Witness for C7: overriding `info` changes that instance's registry entry,
while a second logger constructed without the override keeps the default
table. -/
theorem construct_logLevels_merge_witness :
    List.lookup "info" (Logger.construct argsCustomInfo).1.logLevels =
        some "#123456" ∧
      (Logger.construct {}).1.logLevels = defaultLogLevels :=
  ⟨((construct_logLevels_merge argsCustomInfo "info").1).trans (by decide),
   (construct_logLevels_merge {} "info").2 rfl⟩

/-- C8: level-tag resolution in `getString` is total and never throws: a valid
hex specifier renders through the hex path, a chalk method name through the
method path, and anything else — an invalid specifier or a level absent from
the registry — renders as plain uppercase text. -/
theorem color_resolution_total (logLevels : List (String × String))
    (level : String) :
    (∀ c, List.lookup level logLevels = some c → isValidHexColor c = true →
        resolveLevelTag logLevels level = chalkHex c (jsToUpper level)) ∧
      (∀ c, List.lookup level logLevels = some c → isValidHexColor c = false →
        chalkFunctionKeys.contains c = true →
        resolveLevelTag logLevels level = chalkMethodRender c (jsToUpper level)) ∧
      (∀ c, List.lookup level logLevels = some c → isValidHexColor c = false →
        chalkFunctionKeys.contains c = false →
        resolveLevelTag logLevels level = jsToUpper level) ∧
      (List.lookup level logLevels = none →
        resolveLevelTag logLevels level = jsToUpper level) := by
  refine ⟨?_, ?_, ?_, ?_⟩
  · intro c hc hx; simp [resolveLevelTag, hc, hx]
  · intro c hc hx hm
    have hm2 : c ∈ chalkFunctionKeys := by simpa using hm
    simp [resolveLevelTag, hc, hx, hm2]
  · intro c hc hx hm
    have hm2 : c ∉ chalkFunctionKeys := by simpa using hm
    simp [resolveLevelTag, hc, hx, hm2]
  · intro hc; simp [resolveLevelTag, hc]

/-- Witness for C8: the invalid specifier `notacolor` renders its level as
plain uppercase text. -/
theorem color_resolution_total_witness :
    resolveLevelTag LBad.logLevels "bad" = jsToUpper "bad" :=
  (color_resolution_total LBad.logLevels "bad").2.2.1 "notacolor"
    (by decide) (by decide) (by decide)

/-- C9 counterexample: the claimed access rule fails in both directions.
With the built-in name `info` used as a custom-level key, the proxy
synthesizes a forwarder even though `info` is a fixed method name; and on a
logger with an empty custom-level table the proxy synthesizes a forwarder for
`toString` — an `Object.prototype` property name found by the prototype-chain
walk of `in` — where the claim requires pass-through for every non-key. -/
theorem proxy_get_fixed_method_shadowed :
    proxyGet LInfoCustom "info" ≠ proxyGetSpec LInfoCustom "info" ∧
      proxyGet LInfoCustom "info" = .synthesized "info" ∧
      fixedMethodNames.contains "info" = true ∧
      proxyGet LPlain "toString" ≠ proxyGetSpec LPlain "toString" ∧
      proxyGet LPlain "toString" = .synthesized "toString" ∧
      List.lookup "toString" LPlain.customLogLevels = none := by
  decide

/-- C9 amended: the proxy synthesizes a forwarder for every string property
that is an own key of the custom-level table or an `Object.prototype`
property name (the `in` guard walks the prototype chain) — with no carve-out
for fixed method names — which forwards to `log` with that property as level
under the standard argument normalization; only accesses of properties that
are neither own keys nor `Object.prototype` names pass through. -/
theorem proxy_get_characterization (l : Logger) (dt : DateTimeM)
    (prop : String) (m d : JsVal) :
    (((List.lookup prop l.customLogLevels).isSome = true ∨
        objectPrototypeKeys.contains prop = true) →
        proxyGet l prop = .synthesized prop ∧
        proxyCall l dt prop m d =
          (l.log dt prop (jsOfOptStr (normMessage m)) (normData m d)).2 ∧
        (∀ s, m = .str s →
          proxyCall l dt prop m d = (l.log dt prop (.str s) d).2)) ∧
      ((List.lookup prop l.customLogLevels).isSome = false →
        objectPrototypeKeys.contains prop = false →
        proxyGet l prop = .passthrough) := by
  constructor
  · intro hk
    refine ⟨?_, rfl, ?_⟩
    · rcases hk with hk | hk
      · simp [proxyGet, hk]
      · have hk2 : prop ∈ objectPrototypeKeys := by simpa using hk
        simp [proxyGet, hk2]
    · intro s hs
      subst hs
      rfl
  · intro hk hp
    have hp2 : prop ∉ objectPrototypeKeys := by simpa using hp
    simp [proxyGet, hk, hp2]

/-- Witness for C9 (amended) at the overridden `info` key and at the
inherited `toString` name. -/
theorem proxy_get_characterization_witness :
    proxyGet LInfoCustom "info" = .synthesized "info" ∧
      proxyCall LInfoCustom dt0 "info" (.str "m") .undefined =
        (LInfoCustom.log dt0 "info" (.str "m") .undefined).2 ∧
      proxyGet LPlain "toString" = .synthesized "toString" := by
  have h := (proxy_get_characterization LInfoCustom dt0 "info"
    (.str "m") .undefined).1 (Or.inl (by decide))
  have h2 := (proxy_get_characterization LPlain dt0 "toString"
    (.str "m") .undefined).1 (Or.inr (by decide))
  exact ⟨h.1, h.2.2 "m" rfl, h2.1⟩
